import Mathlib

/-!
Verification of the TapTap subscription / parser plugin against its
natural-language specification.

The development shallowly embeds the Python sources:
  - `src/taptap_subscribe/data_source.py`  (`TapTapSpider`)
  - `src/taptap_subscribe/download.py`     (`TapTapDownloader`)
  - `src/taptap_subscribe/config.py`       (`ConfigManager`)
  - `src/taptap_subscribe/__init__.py`     (`TaptapUpdateChecker`)
  - `src/src/nonebot_plugin_parser/parsers/taptap/common.py` (`TapTapParser`)

Pure functions become Lean functions; network and filesystem effects are
passed explicitly as oracle parameters and association-list states; the
cooperative (asyncio) update checker becomes a small-step transition
system over explicit schedules.
-/

namespace Taptap

/-! ## Payload decoder (`_resolve_nuxt_value`)

Values appearing in a decoded Nuxt payload array.  Python's
`isinstance(value, int)` is true for `bool` as well (`True == 1`,
`False == 0`), so the embedding carries booleans separately but lets
them count as integers, exactly as CPython does. -/

inductive PyVal where
  | vNone : PyVal
  | vBool : Bool → PyVal
  | vInt : Int → PyVal
  | vStr : String → PyVal
  | vList : List PyVal → PyVal

/-- Python `isinstance(value, int)`: true for `int` and for `bool`. -/
def pyIsInt : PyVal → Bool
  | .vInt _ => true
  | .vBool _ => true
  | _ => false

/-- Numeric value of a Python `int`-instance (`True` is `1`, `False` is `0`). -/
def pyIntVal : PyVal → Int
  | .vInt i => i
  | .vBool b => if b then 1 else 0
  | _ => 0

/-- `TapTapSpider._resolve_nuxt_value` / `TapTapParser._resolve_nuxt_value`
(identical bodies in `data_source.py` lines 15-22 and `common.py` lines
102-108): if the value is an integer inside `[0, len(root_data))`, return
`root_data[value]`; otherwise return the value unchanged.  Total by
construction — no decode error is possible. -/
def resolve_nuxt_value (root : List PyVal) (v : PyVal) : PyVal :=
  if pyIsInt v then
    let i := pyIntVal v
    if h : 0 ≤ i ∧ i < (root.length : Int) then
      root.get ⟨i.toNat, by omega⟩
    else v
  else v

/-- C3: for every array and integer `v` with `0 ≤ v < len(array)`,
`resolve(array, v)` returns `array[v]`; every out-of-range integer and
every non-integer value is returned unchanged, and resolution is total
(it never raises a decode error). -/
theorem resolve_nuxt_value_spec :
    (∀ (root : List PyVal) (i : Int) (h0 : 0 ≤ i) (hl : i < (root.length : Int)),
      resolve_nuxt_value root (.vInt i) = root.get ⟨i.toNat, by omega⟩)
    ∧ (∀ (root : List PyVal) (i : Int),
        i < 0 ∨ (root.length : Int) ≤ i →
        resolve_nuxt_value root (.vInt i) = .vInt i)
    ∧ (∀ (root : List PyVal) (v : PyVal),
        pyIsInt v = false → resolve_nuxt_value root v = v) := by
  refine ⟨?_, ?_, ?_⟩
  · intro root i h0 hl
    simp [resolve_nuxt_value, pyIsInt, pyIntVal, h0, hl]
  · intro root i h
    have : ¬ (0 ≤ i ∧ i < (root.length : Int)) := by omega
    simp [resolve_nuxt_value, pyIsInt, pyIntVal, this]
  · intro root v h
    simp [resolve_nuxt_value, h]

/-- Witness for C3 at concrete inputs: an in-range index, an out-of-range
index, and a non-integer value. -/
theorem resolve_nuxt_value_spec_witness :
    resolve_nuxt_value [.vStr "a", .vStr "b"] (.vInt 1) = .vStr "b"
    ∧ resolve_nuxt_value [.vStr "a"] (.vInt 5) = .vInt 5
    ∧ resolve_nuxt_value [.vStr "a"] (.vStr "x") = .vStr "x" := by
  refine ⟨?_, ?_, ?_⟩
  · have h := resolve_nuxt_value_spec.1 [.vStr "a", .vStr "b"] 1
      (by norm_num) (by simp)
    simpa using h
  · exact resolve_nuxt_value_spec.2.1 [.vStr "a"] 5 (by simp)
  · exact resolve_nuxt_value_spec.2.2 [.vStr "a"] (.vStr "x") rfl

/-! ## On-disk cache model

`download.py` touches exactly two files per job: the final artifact
`CACHE_DIR/{file_id}.mp4` and the intermediate `CACHE_DIR/{file_id}_temp.ts`.
The filesystem is an association list from path to file size in bytes. -/

abbrev FS : Type := List (String × Nat)

/-- `Path.exists()` on the modelled filesystem. -/
def fsHas : FS → String → Bool
  | [], _ => false
  | e :: t, p => if e.1 = p then true else fsHas t p

/-- `Path.stat().st_size` on the modelled filesystem (0 when absent). -/
def fsSize : FS → String → Nat
  | [], _ => 0
  | e :: t, p => if e.1 = p then e.2 else fsSize t p

/-- `os.remove` (and the removal half of `Path.rename`). -/
def fsRemove : FS → String → FS
  | [], _ => []
  | e :: t, p => if e.1 = p then fsRemove t p else e :: fsRemove t p

/-- Create or overwrite a file with the given size. -/
def fsSet (fs : FS) (p : String) (n : Nat) : FS :=
  fsRemove fs p ++ [(p, n)]

/-- `CACHE_DIR / f"{file_id}.mp4"` (download.py line 26). -/
def finalPath (fileId : String) : String :=
  "data/taptap_subscribe/cache/" ++ fileId ++ ".mp4"

/-- `CACHE_DIR / f"{file_id}_temp.ts"` (download.py line 27). -/
def tempPath (fileId : String) : String :=
  "data/taptap_subscribe/cache/" ++ fileId ++ "_temp.ts"

/-- The external effects visited by one `download_video` run:
the playlist-resolution outcome (`none` models an exception raised inside
`_smart_parse_m3u8`, e.g. a network failure or a master playlist with no
sub-playlists), the number of bytes a segment URL ultimately yields
across its 3 retries (0 models a fully failed, skipped segment), whether
`ffmpeg` is available, and the size of the file ffmpeg writes (`none`
models a remux that produces no output file). -/
structure DlEnv where
  playlist : Option (List String)
  segBytes : String → Nat
  hasFFmpeg : Bool
  remuxOutput : Option Nat

/-! `TapTapDownloader.download_video` (download.py lines 22-78) is embedded
as `download_video` below, built from two named sub-steps.  It returns the
Python return value (`Path` or `None`), the filesystem after the call, and
the number of network fetches performed (manifest resolution counted as
one, plus one GET per segment URL).

Faithful control flow:
  * line 29: if the final artifact exists, return it immediately;
  * lines 36-39: resolve the playlist; an exception or an empty result
    jumps to the `except` block, which removes the temp file if present;
  * lines 42-55: open the temp file (`"wb"` creates/truncates it) and
    append every successfully fetched segment;
  * lines 57-59: if fewer than 1024 bytes were written, raise — handled
    by the `except` block, which deletes the temp file;
  * lines 61-66: with ffmpeg, `_remux_to_mp4` runs and deletes the temp
    input only when the output file exists (download.py lines 150-151);
    without ffmpeg, the temp file is renamed to the final path;
  * lines 68-72: return the final path only if it exists and is larger
    than 1024 bytes; otherwise return `None` — note that this normal
    return performs no temp-file cleanup. -/

/-- Step 4 of `download_video` (lines 61-66): with ffmpeg, `_remux_to_mp4`
writes the output (or not) and deletes the temp input only when the output
file exists (lines 150-151); without ffmpeg, the temp file is renamed to
the final path. -/
def dlContainerStep (env : DlEnv) (fs1 : FS) (final temp : String)
    (downloaded : Nat) : FS :=
  if env.hasFFmpeg then
    match env.remuxOutput with
    | some outSize => fsRemove (fsSet fs1 final outSize) temp
    | none => fs1
  else fsSet (fsRemove fs1 temp) final downloaded

/-- Lines 68-72: return the final path only if it exists and is larger than
1024 bytes, else return `None`; this normal return performs no cleanup. -/
def dlFinalize (fs2 : FS) (final : String) (fetches : Nat) :
    Option String × FS × Nat :=
  if fsHas fs2 final ∧ 1024 < fsSize fs2 final then (some final, fs2, fetches)
  else (none, fs2, fetches)

def download_video (env : DlEnv) (fs : FS) (fileId : String) :
    Option String × FS × Nat :=
  let final := finalPath fileId
  let temp := tempPath fileId
  if fsHas fs final then (some final, fs, 0)
  else
    match env.playlist with
    | none => (none, fsRemove fs temp, 1)
    | some tsUrls =>
      if tsUrls.isEmpty then (none, fsRemove fs temp, 1)
      else
        let downloaded := (tsUrls.map env.segBytes).sum
        let fs1 := fsSet fs temp downloaded
        let fetches := 1 + tsUrls.length
        if downloaded < 1024 then
          (none, fsRemove fs1 temp, fetches)
        else
          dlFinalize (dlContainerStep env fs1 final temp downloaded) final fetches

lemma final_ne_temp (fileId : String) : finalPath fileId ≠ tempPath fileId := by
  intro h
  have hlen := congrArg String.length h
  simp [finalPath, tempPath, String.length_append] at hlen
  exact absurd hlen (by decide)

lemma fsHas_fsRemove_self (fs : FS) (p : String) :
    fsHas (fsRemove fs p) p = false := by
  induction fs with
  | nil => rfl
  | cons a t ih =>
    by_cases hap : a.1 = p
    · simp [fsRemove, hap, ih]
    · simp [fsRemove, fsHas, hap, ih]

lemma fsHas_fsRemove_ne (fs : FS) (p q : String) (h : q ≠ p) :
    fsHas (fsRemove fs p) q = fsHas fs q := by
  induction fs with
  | nil => rfl
  | cons a t ih =>
    by_cases hap : a.1 = p
    · have hpq : ¬ p = q := fun hh => h hh.symm
      simp [fsRemove, fsHas, hap, hpq, ih]
    · simp [fsRemove, fsHas, hap, ih]

lemma fsHas_append (l₁ l₂ : FS) (p : String) :
    fsHas (l₁ ++ l₂) p = (fsHas l₁ p || fsHas l₂ p) := by
  induction l₁ with
  | nil => simp [fsHas]
  | cons a t ih =>
    by_cases hap : a.1 = p
    · simp [fsHas, hap]
    · simp [fsHas, hap, ih]

lemma fsHas_fsSet_self (fs : FS) (p : String) (n : Nat) :
    fsHas (fsSet fs p n) p = true := by
  simp [fsSet, fsHas_append, fsHas]

lemma fsHas_fsSet_ne (fs : FS) (p q : String) (n : Nat) (h : q ≠ p) :
    fsHas (fsSet fs p n) q = fsHas fs q := by
  have hpq : ¬ p = q := fun hh => h hh.symm
  simp [fsSet, fsHas_append, fsHas, hpq, fsHas_fsRemove_ne fs p q h]

lemma fsSize_append_not_has (l : FS) (p : String) (n : Nat)
    (h : fsHas l p = false) :
    fsSize (l ++ [(p, n)]) p = n := by
  induction l with
  | nil => simp [fsSize]
  | cons a t ih =>
    by_cases hap : a.1 = p
    · simp [fsHas, hap] at h
    · simp only [fsHas, hap, if_false] at h
      simp [fsSize, hap, ih h]

lemma fsSize_fsSet_self (fs : FS) (p : String) (n : Nat) :
    fsSize (fsSet fs p n) p = n :=
  fsSize_append_not_has _ _ _ (fsHas_fsRemove_self fs p)

/-- A `some` result of the finalize step carries the final path, which
exists on the returned filesystem. -/
lemma dlFinalize_some (fs2 : FS) (final : String) (fetches : Nat)
    (p : String) (fs1 : FS) (n : Nat)
    (h : dlFinalize fs2 final fetches = (some p, fs1, n)) :
    p = final ∧ fs1 = fs2 ∧ fsHas fs2 final = true := by
  by_cases hg : fsHas fs2 final ∧ 1024 < fsSize fs2 final
  · unfold dlFinalize at h
    rw [if_pos hg] at h
    simp only [Prod.mk.injEq, Option.some.injEq] at h
    exact ⟨h.1.symm, h.2.1.symm, hg.1⟩
  · unfold dlFinalize at h
    rw [if_neg hg] at h
    simp at h

/-- Every `some` result of `download_video` is the deterministic cache
path, and that path exists on the resulting filesystem. -/
lemma download_video_some_has_final (env : DlEnv) (fs : FS) (fileId : String)
    (p : String) (fs1 : FS) (n : Nat)
    (h : download_video env fs fileId = (some p, fs1, n)) :
    p = finalPath fileId ∧ fsHas fs1 (finalPath fileId) = true := by
  by_cases hc : fsHas fs (finalPath fileId) = true
  · simp only [download_video] at h
    rw [if_pos hc] at h
    simp only [Prod.mk.injEq, Option.some.injEq] at h
    exact ⟨h.1.symm, h.2.1 ▸ hc⟩
  · cases hpl : env.playlist with
    | none => simp [download_video, hc, hpl] at h
    | some ts =>
      cases hemp : ts.isEmpty with
      | true => simp [download_video, hc, hpl, hemp] at h
      | false =>
        by_cases hsum : (ts.map env.segBytes).sum < 1024
        · simp [download_video, hc, hpl, hemp, hsum] at h
        · simp [download_video, hc, hpl, hemp, hsum] at h
          obtain ⟨hp, hfs, hhas⟩ :=
            dlFinalize_some _ _ _ _ _ _ h
          exact ⟨hp, by rw [hfs]; exact hhas⟩

/-- C4: if the completed artifact already exists at the deterministic
cache path, `download_video` returns that path immediately with zero
network fetches; consequently, whenever a call returns a path at all,
an immediately following call with the same job id returns the identical
path and performs no network fetch. -/
theorem download_video_idempotent_cache :
    (∀ (env : DlEnv) (fs : FS) (fileId : String),
       fsHas fs (finalPath fileId) = true →
       download_video env fs fileId = (some (finalPath fileId), fs, 0))
    ∧ (∀ (env : DlEnv) (fs : FS) (fileId : String) (p : String) (fs1 : FS) (n : Nat),
       download_video env fs fileId = (some p, fs1, n) →
       p = finalPath fileId ∧
       ∀ env2 : DlEnv, download_video env2 fs1 fileId = (some p, fs1, 0)) := by
  have hcache : ∀ (env : DlEnv) (fs : FS) (fileId : String),
      fsHas fs (finalPath fileId) = true →
      download_video env fs fileId = (some (finalPath fileId), fs, 0) := by
    intro env fs fileId h
    simp [download_video, h]
  refine ⟨hcache, ?_⟩
  intro env fs fileId p fs1 n h
  obtain ⟨hp, hfs⟩ := download_video_some_has_final env fs fileId p fs1 n h
  subst hp
  exact ⟨rfl, fun env2 => hcache env2 fs1 fileId hfs⟩

/-- Sample environment for the first, cache-cold call: one segment of
4096 bytes, no ffmpeg (degraded rename path). -/
def dlEnvOk : DlEnv :=
  { playlist := some ["segA.ts"], segBytes := fun _ => 4096,
    hasFFmpeg := false, remuxOutput := none }

/-- Witness for C4: a cache-hit call returns with zero fetches, and after
a successful cold call the repeat call returns the identical path with
zero fetches. -/
theorem download_video_idempotent_cache_witness :
    download_video dlEnvOk [(finalPath "v0", 9000)] "v0"
      = (some (finalPath "v0"), [(finalPath "v0", 9000)], 0)
    ∧ ∀ env2 : DlEnv,
        download_video env2 (download_video dlEnvOk [] "v0").2.1 "v0"
          = (some (finalPath "v0"), (download_video dlEnvOk [] "v0").2.1, 0) := by
  constructor
  · exact download_video_idempotent_cache.1 dlEnvOk [(finalPath "v0", 9000)] "v0"
      (by simp [fsHas])
  · have hrun : download_video dlEnvOk [] "v0"
        = (some (finalPath "v0"), (download_video dlEnvOk [] "v0").2.1,
           (download_video dlEnvOk [] "v0").2.2) := by decide
    exact (download_video_idempotent_cache.2 dlEnvOk [] "v0" (finalPath "v0")
      (download_video dlEnvOk [] "v0").2.1 (download_video dlEnvOk [] "v0").2.2 hrun).2

/-- C9: a run whose total written bytes fall below the 1024-byte sanity
threshold returns `None`, deletes the intermediate temp file, and leaves
no final cache artifact for that job. -/
theorem download_video_too_small :
    ∀ (env : DlEnv) (fs : FS) (fileId : String) (ts : List String),
      fsHas fs (finalPath fileId) = false →
      env.playlist = some ts →
      ts ≠ [] →
      (ts.map env.segBytes).sum < 1024 →
      (download_video env fs fileId).1 = none
      ∧ fsHas (download_video env fs fileId).2.1 (tempPath fileId) = false
      ∧ fsHas (download_video env fs fileId).2.1 (finalPath fileId) = false := by
  intro env fs fileId ts hc hpl hts hsum
  have hts' : ts.isEmpty = false := by
    cases ts with
    | nil => exact absurd rfl hts
    | cons a t => rfl
  have hres : download_video env fs fileId
      = (none, fsRemove (fsSet fs (tempPath fileId) ((ts.map env.segBytes).sum))
          (tempPath fileId), 1 + ts.length) := by
    simp [download_video, hc, hpl, hts', hsum]
  rw [hres]
  refine ⟨rfl, fsHas_fsRemove_self _ _, ?_⟩
  rw [fsHas_fsRemove_ne _ _ _ (final_ne_temp fileId),
      fsHas_fsSet_ne _ _ _ _ (final_ne_temp fileId)]
  simpa using hc

/-- Sample environment whose single segment yields only 10 bytes. -/
def dlEnvSmall : DlEnv :=
  { playlist := some ["segA.ts"], segBytes := fun _ => 10,
    hasFFmpeg := false, remuxOutput := none }

/-- Witness for C9 at a concrete too-small run. -/
theorem download_video_too_small_witness :
    (download_video dlEnvSmall [] "v1").1 = none
    ∧ fsHas (download_video dlEnvSmall [] "v1").2.1 (tempPath "v1") = false
    ∧ fsHas (download_video dlEnvSmall [] "v1").2.1 (finalPath "v1") = false := by
  exact download_video_too_small dlEnvSmall [] "v1" ["segA.ts"] rfl rfl
    (by simp) (by norm_num [dlEnvSmall])

/-- Environment in which playlist resolution itself raises. -/
def dlEnvNoPlaylist : DlEnv :=
  { playlist := none, segBytes := fun _ => 0,
    hasFFmpeg := false, remuxOutput := none }

/-- Environment in which the playlist resolves to zero segments. -/
def dlEnvEmpty : DlEnv :=
  { playlist := some [], segBytes := fun _ => 0,
    hasFFmpeg := false, remuxOutput := none }

/-- Environment with a good download but a remux that produces no output
file (ffmpeg present, conversion fails). -/
def dlEnvRemuxFail : DlEnv :=
  { playlist := some ["segA.ts"], segBytes := fun _ => 4096,
    hasFFmpeg := true, remuxOutput := none }

/-- Counterexample to C10: on the remux-failure path `download_video`
returns `None` but leaves the intermediate `_temp.ts` file on disk —
`_remux_to_mp4` deletes its input only when the output exists, and the
`return None` at line 72 performs no cleanup. -/
theorem download_video_remux_temp_counterexample :
    (download_video dlEnvRemuxFail [] "job").1 = none
    ∧ fsHas (download_video dlEnvRemuxFail [] "job").2.1 (tempPath "job") = true := by
  exact ⟨by decide, by decide⟩

/-- C10 (amended): `download_video` is total at its interface — every call
returns either `None` or the deterministic cache path, never an exception.
On playlist-resolution failure, on an empty playlist, and on a size-check
failure it returns `None` and leaves no temp file; on a remux failure it
returns `None` but the intermediate temp file remains on disk. -/
theorem download_video_failure_paths :
    (∀ (env : DlEnv) (fs : FS) (fileId : String),
       (download_video env fs fileId).1 = none
       ∨ (download_video env fs fileId).1 = some (finalPath fileId))
    ∧ (∀ (env : DlEnv) (fs : FS) (fileId : String),
       fsHas fs (finalPath fileId) = false → env.playlist = none →
       (download_video env fs fileId).1 = none
       ∧ fsHas (download_video env fs fileId).2.1 (tempPath fileId) = false)
    ∧ (∀ (env : DlEnv) (fs : FS) (fileId : String),
       fsHas fs (finalPath fileId) = false → env.playlist = some [] →
       (download_video env fs fileId).1 = none
       ∧ fsHas (download_video env fs fileId).2.1 (tempPath fileId) = false)
    ∧ (∀ (env : DlEnv) (fs : FS) (fileId : String) (ts : List String),
       fsHas fs (finalPath fileId) = false → env.playlist = some ts →
       ts ≠ [] → (ts.map env.segBytes).sum < 1024 →
       (download_video env fs fileId).1 = none
       ∧ fsHas (download_video env fs fileId).2.1 (tempPath fileId) = false)
    ∧ (∀ (env : DlEnv) (fs : FS) (fileId : String) (ts : List String),
       fsHas fs (finalPath fileId) = false → env.playlist = some ts →
       ts ≠ [] → 1024 ≤ (ts.map env.segBytes).sum →
       env.hasFFmpeg = true → env.remuxOutput = none →
       (download_video env fs fileId).1 = none
       ∧ fsHas (download_video env fs fileId).2.1 (tempPath fileId) = true) := by
  refine ⟨?_, ?_, ?_, ?_, ?_⟩
  · intro env fs fileId
    rcases hdl : download_video env fs fileId with ⟨o, fs1, n⟩
    cases o with
    | none => left; rfl
    | some p =>
      right
      have hp := (download_video_some_has_final env fs fileId p fs1 n hdl).1
      simp [hp]
  · intro env fs fileId hc hpl
    have hres : download_video env fs fileId
        = (none, fsRemove fs (tempPath fileId), 1) := by
      simp [download_video, hc, hpl]
    rw [hres]
    exact ⟨rfl, fsHas_fsRemove_self _ _⟩
  · intro env fs fileId hc hpl
    have hres : download_video env fs fileId
        = (none, fsRemove fs (tempPath fileId), 1) := by
      simp [download_video, hc, hpl]
    rw [hres]
    exact ⟨rfl, fsHas_fsRemove_self _ _⟩
  · intro env fs fileId ts hc hpl hne hsum
    have h := download_video_too_small env fs fileId ts hc hpl hne hsum
    exact ⟨h.1, h.2.1⟩
  · intro env fs fileId ts hc hpl hne hsum hff hro
    have hemp : ts.isEmpty = false := by
      cases ts with
      | nil => exact absurd rfl hne
      | cons a t => rfl
    have hnotlt : ¬ (ts.map env.segBytes).sum < 1024 := by omega
    have hres : download_video env fs fileId
        = dlFinalize (fsSet fs (tempPath fileId) ((ts.map env.segBytes).sum))
            (finalPath fileId) (1 + ts.length) := by
      simp [download_video, hc, hpl, hemp, hnotlt, dlContainerStep, hff, hro]
    have hhasf : fsHas (fsSet fs (tempPath fileId) ((ts.map env.segBytes).sum))
        (finalPath fileId) = false := by
      rw [fsHas_fsSet_ne _ _ _ _ (final_ne_temp fileId)]
      exact hc
    have hguard : ¬ (fsHas (fsSet fs (tempPath fileId) ((ts.map env.segBytes).sum))
        (finalPath fileId) = true
        ∧ 1024 < fsSize (fsSet fs (tempPath fileId) ((ts.map env.segBytes).sum))
            (finalPath fileId)) := by
      intro hg
      rw [hhasf] at hg
      exact absurd hg.1 (by simp)
    rw [hres]
    unfold dlFinalize
    rw [if_neg hguard]
    exact ⟨rfl, fsHas_fsSet_self _ _ _⟩

/-- Witness for C10's amended theorem: each failure path exercised at a
concrete input. -/
theorem download_video_failure_paths_witness :
    ((download_video dlEnvNoPlaylist [] "w").1 = none
      ∧ fsHas (download_video dlEnvNoPlaylist [] "w").2.1 (tempPath "w") = false)
    ∧ ((download_video dlEnvEmpty [] "w").1 = none
      ∧ fsHas (download_video dlEnvEmpty [] "w").2.1 (tempPath "w") = false)
    ∧ ((download_video dlEnvSmall [] "w").1 = none
      ∧ fsHas (download_video dlEnvSmall [] "w").2.1 (tempPath "w") = false)
    ∧ ((download_video dlEnvRemuxFail [] "w").1 = none
      ∧ fsHas (download_video dlEnvRemuxFail [] "w").2.1 (tempPath "w") = true) := by
  refine ⟨?_, ?_, ?_, ?_⟩
  · exact download_video_failure_paths.2.1 dlEnvNoPlaylist [] "w" rfl rfl
  · exact download_video_failure_paths.2.2.1 dlEnvEmpty [] "w" rfl rfl
  · exact download_video_failure_paths.2.2.2.1 dlEnvSmall [] "w" ["segA.ts"] rfl rfl
      (by simp) (by norm_num [dlEnvSmall])
  · exact download_video_failure_paths.2.2.2.2 dlEnvRemuxFail [] "w" ["segA.ts"] rfl rfl
      (by simp) (by norm_num [dlEnvRemuxFail]) rfl rfl

/-! ## HLS playlist resolver (`_smart_parse_m3u8`, download.py lines 88-130)

Network access is an oracle `fetch : String → Option String` (`none`
models `_fetch_text` raising).  `urllib.parse.urljoin` is abstracted as
the parameter `join`; the code applies it only to lines that do not start
with `http`.  Recursion through nested master playlists is fuelled, since
the Python original has no depth bound. -/

/-- Python `needle in hay` on strings. -/
def containsStr (needle hay : String) : Bool :=
  hay.data.tails.any (fun t => needle.data.isPrefixOf t)

/-- `m3u8_url.rsplit('/', 1)[0] + '/'` (download.py line 93): everything up
to and including the last slash, or the whole URL plus a slash when no
slash occurs. -/
def baseUrlOf (url : String) : String :=
  if url.data.contains '/' then
    String.mk ((url.data.reverse.dropWhile (fun c => c != '/')).reverse)
  else url ++ "/"

/-- `str.splitlines()` restricted to LF (CR is eaten by the later strip),
as a structural recursion the kernel can evaluate. -/
def splitLinesChars : List Char → List (List Char)
  | [] => [[]]
  | c :: cs =>
    let rest := splitLinesChars cs
    if c = '\n' then [] :: rest
    else
      match rest with
      | [] => [[c]]
      | l :: ls => (c :: l) :: ls

/-- Python `str.strip()`: drop leading and trailing whitespace. -/
def trimChars (cs : List Char) : List Char :=
  ((cs.dropWhile Char.isWhitespace).reverse.dropWhile Char.isWhitespace).reverse

/-- Python `str.startswith`. -/
def startsWithChars (pre cs : List Char) : Bool :=
  pre.isPrefixOf cs

/-- Shared line collection of both manifest branches (lines 98-107 and
118-128): strip each line, drop empty and comment lines, keep absolute
`http` references as-is and resolve the rest against the base URL,
preserving file order. -/
def collectRefs (join : String → String → String) (base : String)
    (content : String) : List String :=
  (splitLinesChars content.data).filterMap (fun raw =>
    let line := trimChars raw
    if line.isEmpty then none
    else if startsWithChars "#".data line then none
    else if startsWithChars "http".data line then some (String.mk line)
    else some (join base (String.mk line)))

inductive PlaylistErr where
  | noSubPlaylists
  | fetchFailed
  | outOfFuel
deriving DecidableEq

/-- `TapTapDownloader._smart_parse_m3u8`: fetch the manifest text; on the
master-manifest marker collect sub-playlist references and recurse into
the last one (raising when none exist); otherwise return the segment
references in file order. -/
def smart_parse_m3u8 (join : String → String → String)
    (fetch : String → Option String) :
    Nat → String → Except PlaylistErr (List String)
  | 0, _ => .error .outOfFuel
  | fuel + 1, url =>
    match fetch url with
    | none => .error .fetchFailed
    | some content =>
      let base := baseUrlOf url
      if containsStr "#EXT-X-STREAM-INF" content then
        match (collectRefs join base content).getLast? with
        | none => .error .noSubPlaylists
        | some lastSub => smart_parse_m3u8 join fetch fuel lastSub
      else
        .ok (collectRefs join base content)

/-- C7: on a fetched manifest containing the master marker, the resolver
collects the non-comment non-empty lines as sub-manifest references
(relative ones resolved against the manifest's base URL), recurses into
the last listed sub-manifest, and fails with the no-sub-playlists error
when no such line exists. -/
theorem smart_parse_m3u8_master_step :
    ∀ (join : String → String → String) (fetch : String → Option String)
      (fuel : Nat) (url content : String),
      fetch url = some content →
      containsStr "#EXT-X-STREAM-INF" content = true →
      (collectRefs join (baseUrlOf url) content = [] →
        smart_parse_m3u8 join fetch (fuel + 1) url = .error .noSubPlaylists)
      ∧ (∀ lastSub,
          (collectRefs join (baseUrlOf url) content).getLast? = some lastSub →
          smart_parse_m3u8 join fetch (fuel + 1) url
            = smart_parse_m3u8 join fetch fuel lastSub) := by
  intro join fetch fuel url content hfetch hmaster
  constructor
  · intro hnil
    simp [smart_parse_m3u8, hfetch, hmaster, hnil]
  · intro lastSub hlast
    simp [smart_parse_m3u8, hfetch, hmaster, hlast]

/-- Oracle serving one master manifest with a single relative sub-manifest,
and that sub-manifest's media content. -/
def masterFetchExample : String → Option String :=
  fun u =>
    if u = "http://h/m.m3u8" then some "#EXT-X-STREAM-INF\nv/sub.m3u8"
    else if u = "http://h/v/sub.m3u8" then some "seg.ts" else none

/-- Oracle serving a master manifest with no sub-manifest lines at all. -/
def masterEmptyFetchExample : String → Option String :=
  fun u => if u = "http://h/e.m3u8" then some "#EXT-X-STREAM-INF" else none

/-- Witness for C7: a concrete master manifest recurses into its last
sub-manifest, and a markerless-line master manifest fails with the
no-sub-playlists error. -/
theorem smart_parse_m3u8_master_step_witness :
    smart_parse_m3u8 (fun b r => b ++ r) masterFetchExample 2 "http://h/m.m3u8"
      = smart_parse_m3u8 (fun b r => b ++ r) masterFetchExample 1 "http://h/v/sub.m3u8"
    ∧ smart_parse_m3u8 (fun b r => b ++ r) masterEmptyFetchExample 1 "http://h/e.m3u8"
      = .error .noSubPlaylists := by
  constructor
  · exact (smart_parse_m3u8_master_step (fun b r => b ++ r) masterFetchExample 1
      "http://h/m.m3u8" "#EXT-X-STREAM-INF\nv/sub.m3u8" rfl (by rfl)).2
      "http://h/v/sub.m3u8" (by rfl)
  · exact (smart_parse_m3u8_master_step (fun b r => b ++ r) masterEmptyFetchExample 0
      "http://h/e.m3u8" "#EXT-X-STREAM-INF" rfl (by rfl)).1 (by rfl)

/-- Oracle serving one two-segment media manifest. -/
def mediaFetchExample : String → Option String :=
  fun u => if u = "http://h/d/m.m3u8" then some "seg1.ts\nseg2.ts" else none

/-- C8: a media manifest (no master marker) resolves to exactly its
non-comment non-empty lines, each resolved against the manifest's base
URL, in file order; in particular `[seg1.ts, seg2.ts]` resolves to
`[base+seg1.ts, base+seg2.ts]` in that exact order. -/
theorem smart_parse_m3u8_media_spec :
    (∀ (join : String → String → String) (fetch : String → Option String)
       (fuel : Nat) (url content : String),
       fetch url = some content →
       containsStr "#EXT-X-STREAM-INF" content = false →
       smart_parse_m3u8 join fetch (fuel + 1) url
         = .ok (collectRefs join (baseUrlOf url) content))
    ∧ smart_parse_m3u8 (fun b r => b ++ r) mediaFetchExample 1 "http://h/d/m.m3u8"
        = .ok ["http://h/d/seg1.ts", "http://h/d/seg2.ts"] := by
  constructor
  · intro join fetch fuel url content hfetch hmedia
    simp [smart_parse_m3u8, hfetch, hmedia]
  · rfl

/-- Witness for C8's quantified part at the same concrete media manifest. -/
theorem smart_parse_m3u8_media_spec_witness :
    smart_parse_m3u8 (fun b r => b ++ r) mediaFetchExample 1 "http://h/d/m.m3u8"
      = .ok (collectRefs (fun b r => b ++ r) (baseUrlOf "http://h/d/m.m3u8")
          "seg1.ts\nseg2.ts") := by
  exact smart_parse_m3u8_media_spec.1 (fun b r => b ++ r) mediaFetchExample 0
    "http://h/d/m.m3u8" "seg1.ts\nseg2.ts" rfl (by rfl)

/-! ## Quality resolver & deduplicator

Two selectors exist in the source: `TapTapParser._parse_post_detail`
(common.py lines 676-704) groups sniffed URLs by the id matched by
`/hls/([a-zA-Z0-9\-_]+)` and, per group, stable-sorts by position in the
fixed preference list `['2208','2206','2204','2202']` and takes the first
element; `TapTapSpider.fetch_post_detail` (data_source.py lines 245-297)
splits each group into the root manifest `/hls/{id}.m3u8` and its
sub-variants and, when variants exist, stable-sorts them by the trailing
`/(\d+).m3u8` number, descending, and takes the first. -/

/-- Character class `[a-zA-Z0-9\-_]` of the asset-id pattern. -/
def isIdChar (c : Char) : Bool :=
  c.isAlphanum || c = '-' || c = '_'

/-- `re.search(r'/hls/([a-zA-Z0-9\-_]+)', url)`: leftmost occurrence of
`/hls/` followed by at least one id character; on a failed capture the
scan resumes one character later, as the regex engine does. -/
def extract_hls_id : List Char → Option (List Char)
  | [] => none
  | c :: cs =>
    if startsWithChars "/hls/".data (c :: cs) then
      let idChars := ((c :: cs).drop 5).takeWhile isIdChar
      if idChars.isEmpty then extract_hls_id cs else some idChars
    else extract_hls_id cs

def hlsAssetId (url : String) : Option String :=
  (extract_hls_id url.data).map String.mk

/-- The grouping pass shared by both selectors: URLs whose asset id
matches go into `video_dict` (a dict-of-lists in insertion order); the
rest pass through into `unique_videos` after exact-duplicate removal. -/
def groupByAsset (urls : List String) :
    List (String × List String) × List String :=
  urls.foldl
    (fun acc u =>
      match hlsAssetId u with
      | some vid =>
        if acc.1.any (fun e => e.1 == vid) then
          (acc.1.map (fun e => if e.1 == vid then (e.1, e.2 ++ [u]) else e),
           acc.2)
        else (acc.1 ++ [(vid, [u])], acc.2)
      | none =>
        if acc.2.contains u then acc else (acc.1, acc.2 ++ [u]))
    ([], [])

/-- `quality_priority = ['2208', '2206', '2204', '2202']`
(common.py line 694). -/
def quality_priority : List String := ["2208", "2206", "2204", "2202"]

/-- `get_quality_priority` (common.py lines 695-698): index of the first
marker whose `/{q}.m3u8` occurs in the URL, or the list length. -/
def get_quality_priority (url : String) : Nat :=
  match quality_priority.findIdx?
      (fun q => containsStr ("/" ++ q ++ ".m3u8") url) with
  | some i => i
  | none => quality_priority.length

/-- Stable insertion: `x` goes after every element `y` with `le y x`. -/
def insertStable {α : Type} (le : α → α → Bool) (x : α) : List α → List α
  | [] => [x]
  | y :: ys => if le y x then y :: insertStable le x ys else x :: y :: ys

/-- Stable sort for a total preorder `le`, modelling CPython's
guaranteed-stable `list.sort`: elements comparing equal keep their
original relative order. -/
def sortStable {α : Type} (le : α → α → Bool) (l : List α) : List α :=
  l.foldl (fun acc x => insertStable le x acc) []

/-- `urls.sort(key=get_quality_priority); urls[0]` (common.py lines
699-700): head of the stable ascending sort by marker index. -/
def commonPickGroup (urls : List String) : Option String :=
  (sortStable
    (fun a b => Nat.ble (get_quality_priority a) (get_quality_priority b))
    urls).head?

/-- The deduplicated output of `TapTapParser._parse_post_detail`
(common.py lines 676-704; `result["videos"]` is empty on the sniffing
path modelled here). -/
def select_unique_videos_common (captured : List String) : List String :=
  let grouped := groupByAsset captured
  grouped.2 ++ grouped.1.filterMap (fun e => commonPickGroup e.2)

/-- `re.search(r'/hls/' + re.escape(vid_id) + r'\.m3u8$', url)`
(data_source.py line 282): the URL ends with `/hls/{id}.m3u8`. -/
def isMainManifest (vid url : String) : Bool :=
  ("/hls/" ++ vid ++ ".m3u8").data.isSuffixOf url.data

def digitsToNat (cs : List Char) : Nat :=
  cs.foldl (fun n c => 10 * n + (c.toNat - 48)) 0

/-- `int(re.search(r'/(\d+)\.m3u8$', x).group(1)) if ... else 0`
(data_source.py line 290): the maximal trailing digit run before
`.m3u8`, provided a slash precedes it; otherwise 0. -/
def trailingResKey (url : String) : Nat :=
  if ".m3u8".data.isSuffixOf url.data then
    let stem := url.data.take (url.data.length - 5)
    let revDigits := stem.reverse.takeWhile Char.isDigit
    if revDigits.isEmpty then 0
    else
      match stem.reverse.drop revDigits.length with
      | '/' :: _ => digitsToNat revDigits.reverse
      | _ => 0
  else 0

/-- Per-group choice of `TapTapSpider.fetch_post_detail` (data_source.py
lines 269-297): a singleton group passes through; otherwise the root
manifest (last match wins) is separated from the variants, and if any
variant exists the one with the greatest trailing number is taken
(stable descending sort, index 0), else the root. -/
def dsPickGroup (vid : String) (urls : List String) : Option String :=
  match urls with
  | [u] => some u
  | _ =>
    let children := urls.filter (fun u => !(isMainManifest vid u))
    match children with
    | [] => (urls.filter (fun u => isMainManifest vid u)).getLast?
    | _ :: _ =>
      (sortStable (fun a b => Nat.ble (trailingResKey b) (trailingResKey a))
        children).head?

/-- The deduplicated output of `TapTapSpider.fetch_post_detail`
(data_source.py lines 245-297). -/
def select_unique_videos_ds (captured : List String) : List String :=
  let grouped := groupByAsset captured
  grouped.2 ++ grouped.1.filterMap (fun e => dsPickGroup e.1 e.2)

/-- The candidate set of C6, in captured order. -/
def c6urls : List String :=
  ["https://v.taptap.cn/hls/77/2204.m3u8",
   "https://v.taptap.cn/hls/77/2206.m3u8",
   "https://v.taptap.cn/hls/77.m3u8"]

/-- C6: given the two variant manifests `.../77/2204.m3u8` and
`.../77/2206.m3u8` plus the root `.../77.m3u8`, both quality resolvers
output exactly the single URL `.../77/2206.m3u8` for that asset. -/
theorem quality_resolver_example :
    select_unique_videos_common c6urls
      = ["https://v.taptap.cn/hls/77/2206.m3u8"]
    ∧ select_unique_videos_ds c6urls
      = ["https://v.taptap.cn/hls/77/2206.m3u8"] :=
  ⟨rfl, rfl⟩

/-- The C5 counterexample candidates: one asset, two variants whose
suffixes 1000 < 3000 match no marker in the preference list. -/
def c5urls : List String :=
  ["https://v.taptap.cn/hls/9/1000.m3u8",
   "https://v.taptap.cn/hls/9/3000.m3u8"]

/-- Counterexample to C5: with no quality marker matching, the resolver of
common.py emits the first-captured variant `.../1000.m3u8`, not the one
with the numerically greatest trailing suffix (3000 > 1000). -/
theorem quality_fallback_counterexample :
    select_unique_videos_common c5urls
      = ["https://v.taptap.cn/hls/9/1000.m3u8"]
    ∧ get_quality_priority "https://v.taptap.cn/hls/9/1000.m3u8"
        = quality_priority.length
    ∧ get_quality_priority "https://v.taptap.cn/hls/9/3000.m3u8"
        = quality_priority.length
    ∧ trailingResKey "https://v.taptap.cn/hls/9/1000.m3u8" = 1000
    ∧ trailingResKey "https://v.taptap.cn/hls/9/3000.m3u8" = 3000 :=
  ⟨rfl, rfl, rfl, rfl, rfl⟩

lemma insertStable_all_true {α : Type} (le : α → α → Bool) (x : α)
    (l : List α) (h : ∀ y ∈ l, le y x = true) :
    insertStable le x l = l ++ [x] := by
  induction l with
  | nil => rfl
  | cons y ys ih =>
    have hy : le y x = true := h y (by simp)
    simp [insertStable, hy, ih (fun z hz => h z (by simp [hz]))]

lemma foldl_insertStable_all_true {α : Type} (le : α → α → Bool)
    (l : List α) : ∀ acc : List α,
    (∀ a, a ∈ acc ++ l → ∀ b, b ∈ acc ++ l → le a b = true) →
    l.foldl (fun acc x => insertStable le x acc) acc = acc ++ l := by
  induction l with
  | nil => intro acc h; simp
  | cons x xs ih =>
    intro acc h
    have hx : ∀ y ∈ acc, le y x = true := fun y hy =>
      h y (by simp [hy]) x (by simp)
    rw [List.foldl_cons, insertStable_all_true le x acc hx]
    have hrec := ih (acc ++ [x]) (by
      intro a ha b hb
      apply h <;> simp [List.mem_append] at ha hb ⊢ <;> tauto)
    rw [hrec]
    simp

lemma sortStable_all_true {α : Type} (le : α → α → Bool) (l : List α)
    (h : ∀ a ∈ l, ∀ b ∈ l, le a b = true) :
    sortStable le l = l := by
  have hfold := foldl_insertStable_all_true le l [] (by simpa using h)
  simpa [sortStable] using hfold

/-- C5 (amended): when no candidate URL of a group matches any marker in
the fixed preference list, the resolver of common.py keeps the group's
captured order and selects its first variant — the trailing numeric
filename suffix is not consulted (that comparison exists only in the
subscription spider's selector in data_source.py). -/
theorem quality_fallback_amended :
    ∀ urls : List String,
      (∀ u ∈ urls, get_quality_priority u = quality_priority.length) →
      commonPickGroup urls = urls.head? := by
  intro urls h
  unfold commonPickGroup
  rw [sortStable_all_true]
  intro a ha b hb
  rw [h a ha, h b hb]
  rfl

/-- Witness for C5's amended theorem at the counterexample candidates. -/
theorem quality_fallback_amended_witness :
    commonPickGroup c5urls = some "https://v.taptap.cn/hls/9/1000.m3u8" := by
  have h := quality_fallback_amended c5urls (by decide)
  simpa using h

/-! ## Update poller concurrency (`TaptapUpdateChecker.check_all_subscriptions`)

`__init__.py` lines 199-270.  The method body is

    async with self._check_lock:
        if self._running:
            log("skip"); return
        self._running = True
        try:
            ... full check cycle ...
        finally:
            self._running = False

Under asyncio's cooperative scheduling, a task is embedded as a program
counter; the lock is `asyncio.Lock` (not reentrant, FIFO on waiters —
waiting is modelled by the acquire step being disabled while another task
holds the lock).  Because `_running` is mutated only while the lock is
held, the flag is `True` exactly while the holder is inside the
`try`/`finally`; every task that acquires the lock therefore observes
`_running == False`.  Two concurrent callers suffice to settle the claim,
so the system has two tasks. -/

inductive CheckPc where
  | acquiring
  | checkFlag
  | cycling
  | finishing
  | doneFull
  | doneSkipped
deriving DecidableEq, Fintype

/-- Global state of two concurrent `check_all_subscriptions` calls:
the lock owner, the `_running` flag, each task's position, and how many
full check cycles (target fetch + compare + deliver passes) each task has
performed. -/
structure CheckerState where
  lockOwner : Option Bool
  running : Bool
  pc0 : CheckPc
  pc1 : CheckPc
  cycles0 : Nat
  cycles1 : Nat

def getPc (s : CheckerState) (t : Bool) : CheckPc :=
  if t then s.pc1 else s.pc0

def setPc (s : CheckerState) (t : Bool) (pc : CheckPc) : CheckerState :=
  if t then { s with pc1 := pc } else { s with pc0 := pc }

def addCycle (s : CheckerState) (t : Bool) : CheckerState :=
  if t then { s with cycles1 := s.cycles1 + 1 }
  else { s with cycles0 := s.cycles0 + 1 }

/-- One cooperative step of task `t`:
  * `acquiring`: `async with self._check_lock` — enabled only while no
    task holds the lock (a blocked task makes no progress);
  * `checkFlag`: `if self._running:` — on `True`, log, leave the `with`
    block (releasing the lock) and return without any work; on `False`,
    set `_running = True` and enter the cycle;
  * `cycling` performs the full per-target pass (its interleavings are
    irrelevant here because the only other task can be blocked solely on
    the lock acquire);
  * `finishing`: the `finally` clears `_running` and the `with` block
    releases the lock. -/
def stepTask (s : CheckerState) (t : Bool) : CheckerState :=
  match getPc s t with
  | .acquiring =>
    match s.lockOwner with
    | none => setPc { s with lockOwner := some t } t .checkFlag
    | some _ => s
  | .checkFlag =>
    if s.running then setPc { s with lockOwner := none } t .doneSkipped
    else setPc { s with running := true } t .cycling
  | .cycling => addCycle (setPc s t .finishing) t
  | .finishing => setPc { s with running := false, lockOwner := none } t .doneFull
  | .doneFull => s
  | .doneSkipped => s

/-- Fresh process state: lock free, `_running = False`, both callers about
to enter. -/
def initChecker : CheckerState :=
  { lockOwner := none, running := false,
    pc0 := .acquiring, pc1 := .acquiring, cycles0 := 0, cycles1 := 0 }

/-- Run the two callers under an arbitrary cooperative schedule. -/
def runSched (sched : List Bool) : CheckerState :=
  sched.foldl stepTask initChecker

/-- The finite control portion of `CheckerState` (cycle counters erased),
small enough for exhaustive checking. -/
abbrev CheckerCtl : Type := Option Bool × Bool × CheckPc × CheckPc

def ctlOf (s : CheckerState) : CheckerCtl :=
  (s.lockOwner, s.running, s.pc0, s.pc1)

/-- `stepTask` restricted to the control portion. -/
def stepCtl (c : CheckerCtl) (t : Bool) : CheckerCtl :=
  let write := fun (lo : Option Bool) (r : Bool) (newPc : CheckPc) =>
    if t then (lo, r, c.2.2.1, newPc) else (lo, r, newPc, c.2.2.2)
  match (if t then c.2.2.2 else c.2.2.1) with
  | .acquiring =>
    match c.1 with
    | none => write (some t) c.2.1 .checkFlag
    | some _ => c
  | .checkFlag =>
    if c.2.1 then write none c.2.1 .doneSkipped
    else write c.1 true .cycling
  | .cycling => write c.1 c.2.1 .finishing
  | .finishing => write none false .doneFull
  | .doneFull => c
  | .doneSkipped => c

lemma ctlOf_stepTask (s : CheckerState) (t : Bool) :
    ctlOf (stepTask s t) = stepCtl (ctlOf s) t := by
  obtain ⟨lo, r, p0, p1, c0, c1⟩ := s
  cases t <;> cases p0 <;> cases p1 <;> cases lo <;> cases r <;> rfl

def inCriticalB (pc : CheckPc) : Bool :=
  match pc with
  | .checkFlag | .cycling | .finishing => true
  | _ => false

def holdsRunB (pc : CheckPc) : Bool :=
  match pc with
  | .cycling | .finishing => true
  | _ => false

/-- The inductive invariant: a task between lock acquisition and release
is the lock owner; `_running` is `True` exactly while the owner sits in
the `try`/`finally`; and — the point of the claim — neither task ever
reaches the skip branch. -/
def ctlInvB (c : CheckerCtl) : Bool :=
  (!(inCriticalB c.2.2.1) || (c.1 == some false))
  && (!(inCriticalB c.2.2.2) || (c.1 == some true))
  && (c.2.1 == ((c.1 == some false && holdsRunB c.2.2.1)
      || (c.1 == some true && holdsRunB c.2.2.2)))
  && !(c.2.2.1 == CheckPc.doneSkipped)
  && !(c.2.2.2 == CheckPc.doneSkipped)

set_option maxRecDepth 16384 in
lemma stepCtl_inv : ∀ (c : CheckerCtl) (t : Bool),
    ctlInvB c = true → ctlInvB (stepCtl c t) = true := by decide

lemma foldl_stepTask_inv (sched : List Bool) :
    ∀ s : CheckerState, ctlInvB (ctlOf s) = true →
      ctlInvB (ctlOf (sched.foldl stepTask s)) = true := by
  induction sched with
  | nil => intro s h; exact h
  | cons t rest ih =>
    intro s h
    rw [List.foldl_cons]
    exact ih (stepTask s t) (by rw [ctlOf_stepTask]; exact stepCtl_inv _ t h)

lemma runSched_inv (sched : List Bool) :
    ctlInvB (ctlOf (runSched sched)) = true :=
  foldl_stepTask_inv sched initChecker (by decide)

set_option maxRecDepth 16384 in
lemma ctlInvB_noSkip : ∀ c : CheckerCtl, ctlInvB c = true →
    c.2.2.1 ≠ CheckPc.doneSkipped ∧ c.2.2.2 ≠ CheckPc.doneSkipped := by decide

/-- A schedule in which the second caller arrives while the first is
mid-cycle (its acquire attempts at steps 3 and 5 are blocked), then runs
after the first completes. -/
def overlapSched : List Bool :=
  [false, false, true, false, true, false, true, true, true, true]

/-- C1 (code evaluation): the early-return skip branch of
`check_all_subscriptions` is unreachable under every schedule — `_running`
is only ever `True` while `_check_lock` is held, so no acquirer can
observe it — and in the concrete overlapping schedule the second caller,
far from returning immediately, blocks on the lock and then performs a
full check cycle of its own (both cycle counters end at 1). -/
theorem check_all_subscriptions_never_skips :
    (∀ sched : List Bool,
      (runSched sched).pc0 ≠ CheckPc.doneSkipped
      ∧ (runSched sched).pc1 ≠ CheckPc.doneSkipped)
    ∧ (runSched overlapSched).pc1 = CheckPc.doneFull
    ∧ (runSched overlapSched).cycles1 = 1
    ∧ (runSched overlapSched).cycles0 = 1 := by
  refine ⟨?_, rfl, rfl, rfl⟩
  intro sched
  exact ctlInvB_noSkip (ctlOf (runSched sched)) (runSched_inv sched)

/-! ## Per-target check cycle (`check_all_subscriptions` body, lines 221-263)

One iteration of the subscription loop for a single tracked target,
recorded as an event trace plus the resulting persisted last-seen id.

The group dispatch (line 246) calls
`send_post_content(bot, group_id, 'group', detail, mention_all=True)`
with its full argument list, but the friend dispatch (line 251) is
`send_post_content(user_qq, 'private', detail, mention_all=False)`:
the required positional parameter `detail` of
`send_post_content(bot, target_id, target_type, detail, mention_all)` is
missing, so CPython raises `TypeError` at the call, before any friend
delivery is attempted.  The per-user `except` (lines 261-263) catches it
and `continue`s, so `config_manager.update_last_id` (line 255) never runs
for that target. -/

inductive CheckEvent where
  | fetchLatest : String → CheckEvent
  | extractDetail : String → CheckEvent
  | deliverGroup : Nat → CheckEvent
  | deliverFriend : Nat → CheckEvent
  | persistLastId : String → String → CheckEvent
deriving DecidableEq

/-- The registered destinations of one target
(`subscriptions[user_id] = {"groups": [...], "friends": [...]}`). -/
structure TargetSubs where
  groups : List Nat
  friends : List Nat

/-- External effects of one iteration: the outcome of
`fetch_user_latest_post` (`none` models no post found or a fetch failure)
and whether `get_bot()` succeeds. -/
structure PollEnv where
  latestId : Option String
  botAvailable : Bool

/-- One iteration of the per-target loop (lines 222-263): fetch the
latest id; if it equals the persisted last-seen id, do nothing else; on a
mismatch run one detail extraction, dispatch to every registered group,
then hit the `TypeError` on the first friend (if any) — aborting the
iteration before `update_last_id` — and only with zero friends reach the
persist step. -/
def check_one_subscription (env : PollEnv) (userId : String)
    (subs : TargetSubs) (lastSeen : Option String) :
    List CheckEvent × Option String :=
  match env.latestId with
  | none => ([.fetchLatest userId], lastSeen)
  | some latest =>
    if lastSeen = some latest then ([.fetchLatest userId], lastSeen)
    else
      let evs0 := [CheckEvent.fetchLatest userId, CheckEvent.extractDetail latest]
      if env.botAvailable then
        let groupEvs := subs.groups.map CheckEvent.deliverGroup
        match subs.friends with
        | [] => (evs0 ++ groupEvs ++ [.persistLastId userId latest], some latest)
        | _ :: _ => (evs0 ++ groupEvs, lastSeen)
      else (evs0, lastSeen)

/-- C2 (code evaluation): with last-seen `"100"` and live latest `"100"`
the cycle performs zero deliveries and leaves the history entry
unchanged; with live latest `"101"` and a registered friend destination,
the cycle performs one extraction and the group delivery but then raises
`TypeError` on the malformed friend call — no friend delivery event ever
occurs and the new id is **not** persisted, contradicting the claimed
one-delivery-per-destination-then-persist behaviour; only a target with
no friend destinations behaves as the claim states. -/
theorem check_one_subscription_friend_typeerror :
    check_one_subscription ⟨some "100", true⟩ "u" ⟨[7], [9]⟩ (some "100")
      = ([CheckEvent.fetchLatest "u"], some "100")
    ∧ check_one_subscription ⟨some "101", true⟩ "u" ⟨[7], [9]⟩ (some "100")
      = ([CheckEvent.fetchLatest "u", CheckEvent.extractDetail "101",
          CheckEvent.deliverGroup 7], some "100")
    ∧ check_one_subscription ⟨some "101", true⟩ "u" ⟨[7], []⟩ (some "100")
      = ([CheckEvent.fetchLatest "u", CheckEvent.extractDetail "101",
          CheckEvent.deliverGroup 7, CheckEvent.persistLastId "u" "101"],
         some "101") :=
  ⟨rfl, rfl, rfl⟩

end Taptap
